import Mathlib

/-!
# Verification of the attribute-based S3 access-control stack

Shallow embedding of `lib/test-attribute-access-amplify-infrastructure-stack.ts`:
the Cognito user-pool attribute schema, the identity pool, the IAM managed policy
granting tag-scoped S3 access, the two role trust policies, and the identity-pool
role attachment.  The IAM policy-variable substitution and wildcard matching
performed by the external policy engine are modelled as pure functions, following
the standard IAM semantics the stack relies on.
-/

namespace AttributeAccess

/-- IAM wildcard ("StringLike") matching over character lists: `*` matches any
character sequence (including `/`), `?` matches exactly one character, every
other pattern character matches itself literally. -/
def globMatch : List Char → List Char → Bool
  | [], s => s.isEmpty
  | pc :: ps, s =>
    if pc = '*' then s.tails.any (fun t => globMatch ps t)
    else
      match s with
      | [] => false
      | c :: s' => (pc == '?' || pc == c) && globMatch ps s'

/-- IAM `StringLike` matching on strings: pattern against candidate value. -/
def stringLike (pat s : String) : Bool :=
  globMatch pat.data s.data

/-- The policy variable the stack's scoped statement embeds in its resource
pattern: `${aws:PrincipalTag/client}` (line 115 of the stack). -/
def tagToken : List Char := "${aws:PrincipalTag/client}".data

/-- Single-pass substitution of the `${aws:PrincipalTag/client}` policy variable
by the session-tag value `v`.  The `fuel` argument only makes the recursion
structural; it is initialised to the list length, which suffices because each
step consumes at least one character. -/
def substTagAux (v : List Char) : Nat → List Char → List Char
  | 0, l => l
  | _ + 1, [] => []
  | n + 1, c :: rest =>
    if tagToken.isPrefixOf (c :: rest) then
      v ++ substTagAux v n ((c :: rest).drop tagToken.length)
    else
      c :: substTagAux v n rest

/-- Substitute the session tag `client=v` into a resource pattern string, as the
IAM engine does at request time. -/
def substClientTag (v : String) (pat : String) : String :=
  ⟨substTagAux v.data pat.data.length pat.data⟩

/-- Number of occurrences of the `${aws:PrincipalTag/client}` substitution
point in a pattern. -/
def countTagToken : List Char → Nat
  | [] => 0
  | c :: rest => (if tagToken.isPrefixOf (c :: rest) then 1 else 0) + countTagToken rest

/-- Number of substitution points in a resource-pattern string. -/
def substitutionPointCount (pat : String) : Nat :=
  countTagToken pat.data

/-! ## Data model of the stack's IAM and Cognito resources -/

/-- IAM statement effect. -/
inductive Effect
  | allow
  | deny
deriving DecidableEq, Repr

/-- An IAM permission-policy statement: effect, action patterns, resource
patterns (possibly containing the session-tag substitution point). -/
structure PolicyStatement where
  effect : Effect
  actions : List String
  resources : List String
deriving DecidableEq, Repr

/-- The unscoped listing statement of `s3AccessPolicy` (stack lines 107-111):
allow `s3:ListBucket` on the bucket itself. -/
def listBucketStatement (bucketArn : String) : PolicyStatement :=
  { effect := .allow
    actions := ["s3:ListBucket"]
    resources := [bucketArn] }

/-- The tag-scoped read/write statement of `s3AccessPolicy` (stack lines
112-116): allow `s3:GetObject*`/`s3:PutObject*` on
`bucketArn + "/${aws:PrincipalTag/client}/*"`. -/
def scopedObjectStatement (bucketArn : String) : PolicyStatement :=
  { effect := .allow
    actions := ["s3:GetObject*", "s3:PutObject*"]
    resources := [bucketArn ++ "/${aws:PrincipalTag/client}/*"] }

/-- The statements of the `s3ManagedPolicy` managed policy (stack lines
104-118), in source order. -/
def s3AccessPolicyStatements (bucketArn : String) : List PolicyStatement :=
  [listBucketStatement bucketArn, scopedObjectStatement bucketArn]

/-- Does any action pattern of the statement match the requested action? -/
def actionMatches (stmt : PolicyStatement) (action : String) : Bool :=
  stmt.actions.any (fun pat => stringLike pat action)

/-- Does any resource pattern of the statement, after substituting the
`client` session tag, match the requested resource? -/
def resourceMatches (stmt : PolicyStatement) (tagValue : String)
    (resource : String) : Bool :=
  stmt.resources.any (fun pat => stringLike (substClientTag tagValue pat) resource)

/-- Evaluation of one statement against a request carrying session tag
`client=tagValue`: the statement permits `action` on `resource` iff its effect
is Allow and both an action pattern and a substituted resource pattern match. -/
def statementAllows (stmt : PolicyStatement) (tagValue : String)
    (action : String) (resource : String) : Bool :=
  (stmt.effect == .allow) && actionMatches stmt action
    && resourceMatches stmt tagValue resource

/-! ## Attribute schema (user pool, stack lines 29-47) -/

/-- Length bounds of a Cognito custom string attribute
(`cognito.StringAttribute`). -/
structure StringAttributeProps where
  minLen : Nat
  maxLen : Nat
deriving DecidableEq, Repr

/-- The `client` custom attribute of the user pool (stack line 34):
`new cognito.StringAttribute({minLen: 3, maxLen: 60})`. -/
def clientAttribute : StringAttributeProps :=
  { minLen := 3, maxLen := 60 }

/-- Rejection of an attribute value by the identity boundary. -/
inductive ValidationError
  | valueOutOfBounds
deriving DecidableEq, Repr

/-- Modelled from the spec: Attribute Schema validation (spec section 4.1) — the
identity store accepts a proposed attribute value exactly when its length lies
within the declared bounds, returning the value unchanged (never truncating or
escaping), and rejects with `ValidationError` otherwise.  The enforcement
itself is performed by the Cognito service against the bounds declared at
stack line 34. -/
def validateAttributeValue (props : StringAttributeProps) (v : String) :
    Except ValidationError String :=
  if props.minLen ≤ v.length && v.length ≤ props.maxLen then .ok v
  else .error .valueOutOfBounds

/-! ## Identity pool and federation mapping -/

/-- The identity pool configuration (stack lines 54-62):
`allowUnauthenticatedIdentities: false` with a single Cognito provider. -/
structure IdentityPoolProps where
  allowUnauthenticatedIdentities : Bool
deriving DecidableEq, Repr

/-- `TestAttributeAccessIdentityPool` (stack line 55). -/
def identityPool : IdentityPoolProps :=
  { allowUnauthenticatedIdentities := false }

/-- One Federation Mapping entry: for a target audience, which verified-token
attribute becomes which session-tag key.  The stack documents this as the
manual "Attributes for access control" custom-mapping step
(`client` ← `custom:client`). -/
structure FederationMappingEntry where
  audience : String
  tokenAttribute : String
  tagKey : String
deriving DecidableEq, Repr

/-- Exchange failures of the credential broker. -/
inductive ExchangeError
  | unmappedAttribute
deriving DecidableEq, Repr

/-- A short-lived credential issued by the broker, carrying the session tag. -/
structure Credential where
  tagKey : String
  tagValue : String
deriving DecidableEq, Repr

/-- Modelled from the spec: `resolveTag` (spec section 4.2) — look up the
Federation Mapping entry for the audience, then read the mapped attribute off
the verified token's claims; fail with `UnmappedAttributeError` when no entry
exists for the audience.  The mapping table itself is operator-applied
configuration outside the provisioned stack (the manual step described in the
repository's documentation). -/
def resolveTag (mapping : List FederationMappingEntry) (audience : String)
    (tokenClaims : List (String × String)) :
    Except ExchangeError (String × String) :=
  match mapping.find? (fun e => e.audience == audience) with
  | none => .error .unmappedAttribute
  | some e =>
    match tokenClaims.find? (fun c => c.1 == e.tokenAttribute) with
    | none => .error .unmappedAttribute
    | some c => .ok (e.tagKey, c.2)

/-- Modelled from the spec: the credential exchange (spec sections 2 and 4.2) —
resolve the session tag for the audience and issue a credential carrying it;
fail closed when the tag cannot be resolved. -/
def exchange (mapping : List FederationMappingEntry) (audience : String)
    (tokenClaims : List (String × String)) : Except ExchangeError Credential :=
  match resolveTag mapping audience tokenClaims with
  | .error e => .error e
  | .ok (k, v) => .ok { tagKey := k, tagValue := v }

/-! ## Role trust policies (stack lines 120-164) -/

/-- Condition block of a trust-policy statement: exact `StringEquals` on
`cognito-identity.amazonaws.com:aud` and `ForAnyValue:StringLike` on
`cognito-identity.amazonaws.com:amr`. -/
structure TrustCondition where
  audEquals : String
  amrLike : String
deriving DecidableEq, Repr

/-- A trust-policy statement of an `iam.CfnRole`'s
`assumeRolePolicyDocument`. -/
structure TrustStatement where
  effect : Effect
  actions : List String
  condition : TrustCondition
  principalFederated : String
deriving DecidableEq, Repr

/-- The trust statement of `identityPoolAuthenticatedRole` (stack lines
121-137), parametrised by the identity pool reference used as audience. -/
def authenticatedTrustStatement (identityPoolRef : String) : TrustStatement :=
  { effect := .allow
    actions := ["sts:AssumeRoleWithWebIdentity", "sts:TagSession"]
    condition := { audEquals := identityPoolRef, amrLike := "authenticated" }
    principalFederated := "cognito-identity.amazonaws.com" }

/-- The trust statement of `identityPoolUnauthenticatedRole` (stack lines
146-162). -/
def unauthenticatedTrustStatement (identityPoolRef : String) : TrustStatement :=
  { effect := .allow
    actions := ["sts:AssumeRoleWithWebIdentity", "sts:TagSession"]
    condition := { audEquals := identityPoolRef, amrLike := "unauthenticated" }
    principalFederated := "cognito-identity.amazonaws.com" }

/-- Does a trust statement's `ForAnyValue:StringLike` amr condition accept a
single amr value of the request context? -/
def amrConditionAccepts (ts : TrustStatement) (amrValue : String) : Bool :=
  stringLike ts.condition.amrLike amrValue

/-- An IAM role as the stack constructs it: its trust statements and the
statement lists of its attached managed policies. -/
structure RoleDef where
  trustStatements : List TrustStatement
  managedPolicies : List (List PolicyStatement)
deriving DecidableEq, Repr

/-- `identityPoolAuthenticatedRole` (stack lines 120-142): one trust statement,
and `s3AccessPolicy` as its only managed policy. -/
def authenticatedRole (identityPoolRef bucketArn : String) : RoleDef :=
  { trustStatements := [authenticatedTrustStatement identityPoolRef]
    managedPolicies := [s3AccessPolicyStatements bucketArn] }

/-- `identityPoolUnauthenticatedRole` (stack lines 145-164): one trust
statement and no managed policies (the construct sets none). -/
def unauthenticatedRole (identityPoolRef : String) : RoleDef :=
  { trustStatements := [unauthenticatedTrustStatement identityPoolRef]
    managedPolicies := [] }

/-- A role permits a request iff some statement of some attached policy
allows it. -/
def roleAllows (role : RoleDef) (tagValue action resource : String) : Bool :=
  role.managedPolicies.any
    (fun policy => policy.any (fun stmt => statementAllows stmt tagValue action resource))

/-- The pair of trust statements produced by `createRoles` for one identity
pool reference — one per authentication state. -/
def createRolesTrustStatements (identityPoolRef : String) : List TrustStatement :=
  [authenticatedTrustStatement identityPoolRef,
   unauthenticatedTrustStatement identityPoolRef]

/-! ## Role attachment and role selection (stack lines 166-187) -/

/-- The token-based role mapping of the `CfnIdentityPoolRoleAttachment`. -/
structure RoleMapping where
  mappingType : String
  ambiguousRoleResolution : String
  identityProvider : String
deriving DecidableEq, Repr

/-- The `CfnIdentityPoolRoleAttachment` configuration. -/
structure RoleAttachment where
  identityPoolId : String
  authenticatedRoleArn : String
  unauthenticatedRoleArn : String
  roleMapping : RoleMapping
deriving DecidableEq, Repr

/-- `identity-pool-role-attachment` (stack lines 166-187): both roles plus a
`Token` role mapping with `ambiguousRoleResolution: 'AuthenticatedRole'`. -/
def roleAttachment (identityPoolId authArn unauthArn provider : String) :
    RoleAttachment :=
  { identityPoolId := identityPoolId
    authenticatedRoleArn := authArn
    unauthenticatedRoleArn := unauthArn
    roleMapping :=
      { mappingType := "Token"
        ambiguousRoleResolution := "AuthenticatedRole"
        identityProvider := provider } }

/-- Outcome of one credential exchange, as seen by the broker's role-selection
step. -/
inductive ExchangeOutcome
  | authenticated
  | unauthenticated
  | ambiguous
deriving DecidableEq, Repr

/-- Modelled from the spec: the broker's Role Selection Rule (spec section 4.5)
— pick the configured role for the outcome's authentication state and resolve
ambiguity by the attachment's `ambiguousRoleResolution` preference
(`AuthenticatedRole` selects the authenticated role; any other setting denies,
yielding no role). -/
def selectRole (att : RoleAttachment) : ExchangeOutcome → Option String
  | .authenticated => some att.authenticatedRoleArn
  | .unauthenticated => some att.unauthenticatedRoleArn
  | .ambiguous =>
    if att.roleMapping.ambiguousRoleResolution == "AuthenticatedRole" then
      some att.authenticatedRoleArn
    else
      none

/-- Actions that can read or write partitioned object data: the S3 object-level
read/write operations named by the scoped statement's patterns. -/
def isReadWriteAction (a : String) : Bool :=
  stringLike a "s3:GetObject" || stringLike a "s3:PutObject"

/-! ## Lemmas about wildcard matching -/

/-- A lone `*` pattern matches every string. -/
lemma globMatch_star (s : List Char) : globMatch ['*'] s = true := by
  simp [globMatch]

/-- Every pattern matches itself read as a literal string. -/
lemma globMatch_refl (l : List Char) : globMatch l l = true := by
  induction l with
  | nil => rfl
  | cons c cs ih =>
    by_cases hc : c = '*'
    · subst hc
      have hunfold : globMatch ('*' :: cs) ('*' :: cs)
          = (('*' :: cs).tails.any fun t => globMatch cs t) := by
        simp [globMatch]
      rw [hunfold, List.any_eq_true]
      refine ⟨cs, ?_, ih⟩
      rw [List.mem_tails]
      exact List.suffix_cons '*' cs
    · simp [globMatch, hc, ih]

/-- Matching against a pattern that begins with a wildcard-free literal block
`xs` succeeds exactly when the string begins with `xs` and the rest matches the
rest of the pattern. -/
lemma globMatch_literal_append (xs p : List Char)
    (hx : ∀ c ∈ xs, c ≠ '*' ∧ c ≠ '?') (s : List Char) :
    globMatch (xs ++ p) s = true ↔ ∃ t, s = xs ++ t ∧ globMatch p t = true := by
  induction xs generalizing s with
  | nil => simp
  | cons c cs ih =>
    obtain ⟨hcs, hcq⟩ := hx c (by simp)
    have hx' : ∀ d ∈ cs, d ≠ '*' ∧ d ≠ '?' := fun d hd => hx d (by simp [hd])
    cases s with
    | nil =>
      simp only [List.cons_append, globMatch, if_neg hcs]
      simp
    | cons d s' =>
      simp only [List.cons_append, globMatch, if_neg hcs]
      have hq : (c == '?') = false := by
        simpa using hcq
      by_cases hcd : c = d
      · subst hcd
        simp only [hq, beq_self_eq_true, Bool.false_or, Bool.true_and,
          List.append_eq]
        rw [ih hx' s']
        simp only [List.cons.injEq, true_and]
      · have hcd' : (c == d) = false := by simpa using hcd
        simp only [hq, hcd', Bool.false_or, Bool.false_and, Bool.false_eq_true,
          false_iff]
        rintro ⟨t, ht, -⟩
        have := congrArg (fun l => l.head?) ht
        simp only [List.head?_cons, Option.some.injEq] at this
        exact hcd this.symm

/-- A wildcard-free pattern matches exactly the pattern itself. -/
lemma stringLike_of_no_wildcards (pat s : String)
    (h : ∀ c ∈ pat.data, c ≠ '*' ∧ c ≠ '?') :
    stringLike pat s = true ↔ s = pat := by
  unfold stringLike
  have := globMatch_literal_append pat.data [] h s.data
  rw [List.append_nil] at this
  rw [this]
  constructor
  · rintro ⟨t, ht, hm⟩
    cases t with
    | nil => exact String.ext (by simpa using ht)
    | cons a b => simp [globMatch] at hm
  · rintro rfl
    exact ⟨[], by simp, rfl⟩

/-! ## Lemmas about tag substitution and token counting -/

/-- The substitution fuel is irrelevant once it covers the list length. -/
lemma substTagAux_congr (v : List Char) :
    ∀ n m l, l.length ≤ n → l.length ≤ m →
      substTagAux v n l = substTagAux v m l := by
  intro n
  induction n with
  | zero =>
    intro m l hn _
    have : l = [] := List.eq_nil_of_length_eq_zero (Nat.le_zero.mp hn)
    subst this
    cases m <;> rfl
  | succ n ih =>
    intro m l hn hm
    cases l with
    | nil => cases m <;> rfl
    | cons c rest =>
      cases m with
      | zero => simp at hm
      | succ m =>
        have htok : tagToken.length = 26 := rfl
        simp only [substTagAux]
        by_cases hp : tagToken.isPrefixOf (c :: rest) = true
        · simp only [if_pos hp]
          congr 1
          apply ih
          · simp only [List.length_drop, List.length_cons, htok]
            simp only [List.length_cons] at hn
            omega
          · simp only [List.length_drop, List.length_cons, htok]
            simp only [List.length_cons] at hm
            omega
        · simp only [if_neg hp]
          congr 1
          apply ih
          · simp only [List.length_cons] at hn
            omega
          · simp only [List.length_cons] at hm
            omega

/-- Substitution passes over a `$`-free prefix unchanged. -/
lemma substTagAux_dollar_free (v : List Char) :
    ∀ xs ys n, '$' ∉ xs → (xs ++ ys).length ≤ n →
      substTagAux v n (xs ++ ys) = xs ++ substTagAux v ys.length ys := by
  intro xs
  induction xs with
  | nil =>
    intro ys n _ hn
    simpa using substTagAux_congr v n ys.length ys (by simpa using hn) le_rfl
  | cons c cs ih =>
    intro ys n hd hn
    have hc : c ≠ '$' := fun h => hd (by simp [h])
    have hcs : '$' ∉ cs := fun h => hd (by simp [h])
    cases n with
    | zero => simp at hn
    | succ n =>
      have hp : ¬ (tagToken.isPrefixOf (c :: (cs ++ ys)) = true) := by
        have htok : tagToken = '$' :: "{aws:PrincipalTag/client}".data := rfl
        rw [htok]
        simp only [List.isPrefixOf, Bool.and_eq_true, beq_iff_eq]
        rintro ⟨h1, -⟩
        exact hc h1.symm
      show substTagAux v (n + 1) (c :: (cs ++ ys)) = c :: (cs ++ substTagAux v ys.length ys)
      simp only [substTagAux, if_neg hp, List.cons.injEq, true_and]
      apply ih
      · exact hcs
      · simp only [List.length_append, List.length_cons] at hn ⊢
        omega

/-- Substitution leaves a `$`-free string unchanged. -/
lemma substClientTag_of_no_dollar (v p : String) (h : '$' ∉ p.data) :
    substClientTag v p = p := by
  apply String.ext
  show substTagAux v.data p.data.length p.data = p.data
  have h2 := substTagAux_dollar_free v.data p.data [] p.data.length h (by simp)
  rw [List.append_nil] at h2
  rw [h2]
  show p.data ++ ([] : List Char) = p.data
  simp

/-- Substituting the session tag into the scoped statement's resource pattern
yields the literal per-tenant pattern `bucketArn/<tag>/*`. -/
lemma substClientTag_scoped_pattern (v bucketArn : String)
    (h : '$' ∉ bucketArn.data) :
    substClientTag v (bucketArn ++ "/${aws:PrincipalTag/client}/*")
      = bucketArn ++ "/" ++ v ++ "/*" := by
  apply String.ext
  show substTagAux v.data (bucketArn ++ "/${aws:PrincipalTag/client}/*").data.length
    (bucketArn ++ "/${aws:PrincipalTag/client}/*").data
    = (bucketArn ++ "/" ++ v ++ "/*").data
  rw [String.data_append]
  rw [substTagAux_dollar_free v.data bucketArn.data
    ("/${aws:PrincipalTag/client}/*").data _ h (by simp)]
  have hsuffix : substTagAux v.data ("/${aws:PrincipalTag/client}/*").data.length
      ("/${aws:PrincipalTag/client}/*").data = '/' :: (v.data ++ "/*".data) := rfl
  rw [hsuffix]
  simp [String.data_append]

/-- Token counting passes over a `$`-free prefix. -/
lemma countTagToken_dollar_free :
    ∀ xs ys : List Char, '$' ∉ xs →
      countTagToken (xs ++ ys) = countTagToken ys := by
  intro xs
  induction xs with
  | nil => intro ys _; rfl
  | cons c cs ih =>
    intro ys hd
    have hc : c ≠ '$' := fun h => hd (by simp [h])
    have hcs : '$' ∉ cs := fun h => hd (by simp [h])
    have hp : ¬ (tagToken.isPrefixOf (c :: (cs ++ ys)) = true) := by
      have htok : tagToken = '$' :: "{aws:PrincipalTag/client}".data := rfl
      rw [htok]
      simp only [List.isPrefixOf, Bool.and_eq_true, beq_iff_eq]
      rintro ⟨h1, -⟩
      exact hc h1.symm
    show countTagToken (c :: (cs ++ ys)) = countTagToken ys
    simp only [countTagToken, if_neg hp]
    simpa using ih ys hcs

/-- If a slash-free block followed by `/` is a prefix of another slash-free
block followed by `/`, the blocks coincide. -/
lemma eq_of_slashfree_prefix :
    ∀ a b t k : List Char, '/' ∉ a → '/' ∉ b →
      b ++ '/' :: k = a ++ '/' :: t → a = b := by
  intro a
  induction a with
  | nil =>
    intro b t k _ hb h
    cases b with
    | nil => rfl
    | cons c b' =>
      simp only [List.cons_append, List.nil_append, List.cons.injEq] at h
      exact absurd (by simp [h.1]) hb
  | cons x a' ih =>
    intro b t k ha hb h
    cases b with
    | nil =>
      simp only [List.nil_append, List.cons_append, List.cons.injEq] at h
      exact absurd (by simp [← h.1]) ha
    | cons c b' =>
      simp only [List.cons_append, List.cons.injEq] at h
      have ha' : '/' ∉ a' := fun hm => ha (by simp [hm])
      have hb' : '/' ∉ b' := fun hm => hb (by simp [hm])
      rw [h.1, ih b' t k ha' hb' h.2]

/-- Core of the isolation argument: a credential tagged with one tenant value
never satisfies the scoped statement on an object inside another tenant's
partition, provided the ARN and the tag values are free of the policy-language
metacharacters. -/
lemma scoped_statement_cross_tenant_denied (bucketArn a b k : String)
    (hArn : ∀ c ∈ bucketArn.data, c ≠ '$' ∧ c ≠ '*' ∧ c ≠ '?')
    (ha : ∀ c ∈ a.data, c ≠ '/' ∧ c ≠ '*' ∧ c ≠ '?')
    (hb : '/' ∉ b.data)
    (hne : a ≠ b) (action : String) :
    statementAllows (scopedObjectStatement bucketArn) a action
      (bucketArn ++ "/" ++ b ++ "/" ++ k) = false := by
  have hdollar : '$' ∉ bucketArn.data := fun hm => (hArn '$' hm).1 rfl
  have hres : resourceMatches (scopedObjectStatement bucketArn) a
      (bucketArn ++ "/" ++ b ++ "/" ++ k) = false := by
    unfold resourceMatches scopedObjectStatement
    simp only [List.any_cons, List.any_nil, Bool.or_false]
    rw [substClientTag_scoped_pattern a bucketArn hdollar]
    by_contra hcon
    rw [Bool.not_eq_false] at hcon
    unfold stringLike at hcon
    have hslash : ("/" : String).data = ['/'] := rfl
    have hsw : ("/*" : String).data = ['/', '*'] := rfl
    have hpat : (bucketArn ++ "/" ++ a ++ "/*").data
        = (bucketArn.data ++ '/' :: (a.data ++ ['/'])) ++ ['*'] := by
      simp [String.data_append, hslash, hsw]
    rw [hpat] at hcon
    have hx : ∀ c ∈ bucketArn.data ++ '/' :: (a.data ++ ['/']), c ≠ '*' ∧ c ≠ '?' := by
      intro c hmem
      rcases List.mem_append.mp hmem with h1 | h1
      · exact ⟨(hArn c h1).2.1, (hArn c h1).2.2⟩
      · rcases List.mem_cons.mp h1 with h2 | h2
        · subst h2; exact ⟨by decide, by decide⟩
        · rcases List.mem_append.mp h2 with h3 | h3
          · exact ⟨(ha c h3).2.1, (ha c h3).2.2⟩
          · have hc : c = '/' := by simpa using h3
            subst hc; exact ⟨by decide, by decide⟩
    obtain ⟨t, hts, -⟩ :=
      (globMatch_literal_append (bucketArn.data ++ '/' :: (a.data ++ ['/'])) ['*'] hx
        (bucketArn ++ "/" ++ b ++ "/" ++ k).data).mp hcon
    have hs : (bucketArn ++ "/" ++ b ++ "/" ++ k).data
        = bucketArn.data ++ '/' :: (b.data ++ '/' :: k.data) := by
      simp [String.data_append, hslash]
    rw [hs] at hts
    have hts' : b.data ++ '/' :: k.data = a.data ++ '/' :: t := by
      have h3 : bucketArn.data ++ ('/' :: (b.data ++ '/' :: k.data))
          = bucketArn.data ++ ('/' :: (a.data ++ '/' :: t)) := by
        rw [hts]
        simp
      have h4 := List.append_cancel_left h3
      simpa using h4
    have hdataeq : a.data = b.data :=
      eq_of_slashfree_prefix a.data b.data t k.data
        (fun hm => (ha '/' hm).1 rfl) hb hts'
    exact hne (String.ext hdataeq)
  simp [statementAllows, hres]

/-! ## Claim theorems -/

/-- **C1** (amended).  Tenant isolation: for two identities whose `client`
attribute values `a` and `b` differ — and contain neither the path separator
`/` nor the policy wildcards `*`, `?` — credentials carrying session tag
`client=a` never satisfy the scoped read/write statement on objects of `b`'s
partition path, and vice versa, for any requested action and object key. -/
theorem tenant_isolation (bucketArn a b k : String)
    (hArn : ∀ c ∈ bucketArn.data, c ≠ '$' ∧ c ≠ '*' ∧ c ≠ '?')
    (ha : ∀ c ∈ a.data, c ≠ '/' ∧ c ≠ '*' ∧ c ≠ '?')
    (hb : ∀ c ∈ b.data, c ≠ '/' ∧ c ≠ '*' ∧ c ≠ '?')
    (hne : a ≠ b) (action : String) :
    statementAllows (scopedObjectStatement bucketArn) a action
        (bucketArn ++ "/" ++ b ++ "/" ++ k) = false
    ∧ statementAllows (scopedObjectStatement bucketArn) b action
        (bucketArn ++ "/" ++ a ++ "/" ++ k) = false :=
  ⟨scoped_statement_cross_tenant_denied bucketArn a b k hArn ha
      (fun hm => (hb '/' hm).1 rfl) hne action,
    scoped_statement_cross_tenant_denied bucketArn b a k hArn hb
      (fun hm => (ha '/' hm).1 rfl) (Ne.symm hne) action⟩

/-- **C1** witness: concrete instantiation of the isolation theorem for the
tenants `acme` and `globex`. -/
theorem tenant_isolation_witness :
    statementAllows (scopedObjectStatement "arn:aws:s3:::test-bucket") "acme"
        "s3:GetObject"
        ("arn:aws:s3:::test-bucket" ++ "/" ++ "globex" ++ "/" ++ "file.txt") = false
    ∧ statementAllows (scopedObjectStatement "arn:aws:s3:::test-bucket") "globex"
        "s3:GetObject"
        ("arn:aws:s3:::test-bucket" ++ "/" ++ "acme" ++ "/" ++ "file.txt") = false :=
  tenant_isolation "arn:aws:s3:::test-bucket" "acme" "globex" "file.txt"
    (by decide) (by decide) (by decide) (by decide) "s3:GetObject"

/-- **C1** counterexample: the claim quantified over *all* distinct attribute
values fails.  `"aaa"` and `"aaa/bbb"` are distinct values both accepted by the
declared length bounds, yet a credential tagged `client=aaa` satisfies the
scoped statement on the object `file.txt` of tenant `aaa/bbb`'s partition,
because the substituted pattern's trailing `*` matches across `/`. -/
theorem tenant_isolation_counterexample :
    ("aaa" : String) ≠ "aaa/bbb"
    ∧ validateAttributeValue clientAttribute "aaa" = Except.ok "aaa"
    ∧ validateAttributeValue clientAttribute "aaa/bbb" = Except.ok "aaa/bbb"
    ∧ statementAllows (scopedObjectStatement "arn:aws:s3:::test-bucket") "aaa"
        "s3:GetObject"
        ("arn:aws:s3:::test-bucket" ++ "/" ++ "aaa/bbb" ++ "/" ++ "file.txt") = true :=
  ⟨by decide, rfl, rfl, by decide⟩

/-- **C2**.  Round trip: the policy built for tag key `client`, evaluated with
session tag `acme`, permits the read/write actions on objects under
`resource/acme/*`, denies them on `resource/other/*` and on objects directly
under the bare `resource/*` prefix, and the unscoped listing statement permits
enumeration of the bucket. -/
theorem access_policy_round_trip :
    statementAllows (scopedObjectStatement "resource") "acme" "s3:GetObject"
        "resource/acme/file.txt" = true
    ∧ statementAllows (scopedObjectStatement "resource") "acme" "s3:PutObject"
        "resource/acme/file.txt" = true
    ∧ statementAllows (scopedObjectStatement "resource") "acme" "s3:GetObject"
        "resource/other/file.txt" = false
    ∧ statementAllows (scopedObjectStatement "resource") "acme" "s3:PutObject"
        "resource/other/file.txt" = false
    ∧ statementAllows (scopedObjectStatement "resource") "acme" "s3:GetObject"
        "resource/file.txt" = false
    ∧ statementAllows (scopedObjectStatement "resource") "acme" "s3:PutObject"
        "resource/file.txt" = false
    ∧ statementAllows (listBucketStatement "resource") "acme" "s3:ListBucket"
        "resource" = true :=
  ⟨by decide, by decide, by decide, by decide, by decide, by decide, by decide⟩

/-- **C3**.  Fail-closed exchange: when no Federation Mapping entry exists for
the request's audience, the exchange fails with `UnmappedAttributeError` and
issues no credential — it never falls back to an unscoped or default tag. -/
theorem unmapped_audience_fails_closed (mapping : List FederationMappingEntry)
    (audience : String) (claims : List (String × String))
    (h : ∀ e ∈ mapping, e.audience ≠ audience) :
    exchange mapping audience claims = Except.error ExchangeError.unmappedAttribute
    ∧ ∀ c : Credential, exchange mapping audience claims ≠ Except.ok c := by
  have hfind : mapping.find? (fun e => e.audience == audience) = none := by
    rw [List.find?_eq_none]
    intro e he
    simpa using h e he
  have hexch : exchange mapping audience claims
      = Except.error ExchangeError.unmappedAttribute := by
    unfold exchange resolveTag
    rw [hfind]
  exact ⟨hexch, fun c hc => by rw [hexch] at hc; exact Except.noConfusion hc⟩

/-- **C3** witness: a mapping table whose only entry names a different
audience fails the exchange closed. -/
theorem unmapped_audience_fails_closed_witness :
    exchange
        [{ audience := "us-east-1:other-pool", tokenAttribute := "custom:client",
           tagKey := "client" }]
        "us-east-1:this-pool" [("custom:client", "acme")]
      = Except.error ExchangeError.unmappedAttribute :=
  (unmapped_audience_fails_closed
    [{ audience := "us-east-1:other-pool", tokenAttribute := "custom:client",
       tagKey := "client" }]
    "us-east-1:this-pool" [("custom:client", "acme")] (by decide)).1

/-- **C4**.  Trust-policy shape: for every audience, each of the two
constructed trust statements grants exactly the two actions (credential
exchange and session tagging), carries an exact audience-match condition and an
authentication-state condition, and no single authentication-state value
satisfies both states' conditions. -/
theorem trust_policy_shape (ref : String) :
    (authenticatedTrustStatement ref).actions.length = 2
    ∧ (authenticatedTrustStatement ref).actions
        = ["sts:AssumeRoleWithWebIdentity", "sts:TagSession"]
    ∧ (authenticatedTrustStatement ref).condition.audEquals = ref
    ∧ (unauthenticatedTrustStatement ref).actions.length = 2
    ∧ (unauthenticatedTrustStatement ref).actions
        = ["sts:AssumeRoleWithWebIdentity", "sts:TagSession"]
    ∧ (unauthenticatedTrustStatement ref).condition.audEquals = ref
    ∧ (authenticatedTrustStatement ref).condition.amrLike = "authenticated"
    ∧ (unauthenticatedTrustStatement ref).condition.amrLike = "unauthenticated"
    ∧ ∀ amr : String,
        (amrConditionAccepts (authenticatedTrustStatement ref) amr
          && amrConditionAccepts (unauthenticatedTrustStatement ref) amr) = false := by
  refine ⟨rfl, rfl, rfl, rfl, rfl, rfl, rfl, rfl, fun amr => ?_⟩
  cases h1 : amrConditionAccepts (authenticatedTrustStatement ref) amr with
  | false => simp
  | true =>
    have hamr : amr = "authenticated" := by
      have := (stringLike_of_no_wildcards "authenticated" amr (by decide)).mp h1
      exact this
    subst hamr
    have h2 : amrConditionAccepts (unauthenticatedTrustStatement ref)
        "authenticated" = false := rfl
    simp [h2]

/-- **C5**.  Attribute validation bounds: validation of a proposed `client`
value accepts exactly the values of length between 3 and 60 and returns the
value verbatim (never truncated or escaped); all other values are rejected
with a validation error. -/
theorem attribute_validation_bounds (v : String) :
    (validateAttributeValue clientAttribute v = Except.ok v
      ∨ validateAttributeValue clientAttribute v
          = Except.error ValidationError.valueOutOfBounds)
    ∧ (validateAttributeValue clientAttribute v = Except.ok v
        ↔ 3 ≤ v.length ∧ v.length ≤ 60)
    ∧ ∀ w, validateAttributeValue clientAttribute v = Except.ok w → w = v := by
  unfold validateAttributeValue clientAttribute
  by_cases h : (3 ≤ v.length && v.length ≤ 60) = true
  · rw [if_pos h]
    simp only [Bool.and_eq_true, decide_eq_true_eq] at h
    exact ⟨Or.inl rfl, ⟨fun _ => h, fun _ => rfl⟩,
      fun w hw => (Except.ok.inj hw).symm⟩
  · rw [if_neg h]
    simp only [Bool.and_eq_true, decide_eq_true_eq, not_and_or] at h
    refine ⟨Or.inr rfl, ⟨fun hc => Except.noConfusion hc, fun hc => ?_⟩,
      fun w hw => Except.noConfusion hw⟩
    rcases h with h | h
    · exact absurd hc.1 (by omega)
    · exact absurd hc.2 (by omega)

/-- **C5** witness: the value `acme` (length 4) is accepted verbatim. -/
theorem attribute_validation_bounds_witness :
    validateAttributeValue clientAttribute "acme" = Except.ok "acme" :=
  (attribute_validation_bounds "acme").2.1.mpr (by decide)

/-- **C6**.  Substitution-point invariant: every statement of the S3 access
policy whose actions can read or write partitioned object data has exactly one
`${aws:PrincipalTag/client}` substitution point in each of its resource
patterns. -/
theorem readwrite_statements_carry_substitution_point (bucketArn : String)
    (hArn : '$' ∉ bucketArn.data) :
    ∀ stmt ∈ s3AccessPolicyStatements bucketArn,
      (∃ a ∈ stmt.actions, isReadWriteAction a = true) →
      ∀ r ∈ stmt.resources, substitutionPointCount r = 1 := by
  intro stmt hmem hrw r hr
  rcases List.mem_cons.mp hmem with h1 | h1
  · exfalso
    obtain ⟨a, hamem, harw⟩ := hrw
    rw [h1] at hamem
    have : a = "s3:ListBucket" := by simpa [listBucketStatement] using hamem
    subst this
    exact absurd harw (by decide)
  · have h2 : stmt = scopedObjectStatement bucketArn := by
      simpa [s3AccessPolicyStatements] using h1
    subst h2
    have hr' : r = bucketArn ++ "/${aws:PrincipalTag/client}/*" := by
      simpa [scopedObjectStatement] using hr
    subst hr'
    unfold substitutionPointCount
    rw [String.data_append]
    rw [countTagToken_dollar_free bucketArn.data _ hArn]
    rfl

/-- **C6** witness: the scoped statement of a concrete bucket's policy is
read/write and its only resource pattern carries exactly one substitution
point. -/
theorem readwrite_substitution_point_witness :
    substitutionPointCount ("arn:aws:s3:::test-bucket" ++ "/${aws:PrincipalTag/client}/*") = 1 :=
  readwrite_statements_carry_substitution_point "arn:aws:s3:::test-bucket"
    (by decide) (scopedObjectStatement "arn:aws:s3:::test-bucket")
    (by simp [s3AccessPolicyStatements])
    ⟨"s3:GetObject*", by simp [scopedObjectStatement], by decide⟩
    _ (by simp [scopedObjectStatement])

/-- **C7**.  Role selection determinism: with the stack's attachment
(`ambiguousRoleResolution = 'AuthenticatedRole'`), every exchange outcome
selects exactly one role, the ambiguous case resolves to the authenticated
role, and the selected role is always one of the two configured roles. -/
theorem role_selection_deterministic (poolId authArn unauthArn provider : String) :
    (∀ o : ExchangeOutcome,
        (selectRole (roleAttachment poolId authArn unauthArn provider) o).isSome = true)
    ∧ selectRole (roleAttachment poolId authArn unauthArn provider)
        ExchangeOutcome.ambiguous = some authArn
    ∧ ∀ o : ExchangeOutcome,
        selectRole (roleAttachment poolId authArn unauthArn provider) o = some authArn
        ∨ selectRole (roleAttachment poolId authArn unauthArn provider) o = some unauthArn := by
  refine ⟨fun o => ?_, by simp [selectRole, roleAttachment], fun o => ?_⟩
  · cases o <;> simp [selectRole, roleAttachment]
  · cases o <;> simp [selectRole, roleAttachment]

/-- **C8**.  Paired trust statements: `createRoles` always produces exactly two
trust statements for the same audience, identical in effect, actions, principal
and audience condition and differing only in the authentication-state
condition (`authenticated` vs `unauthenticated`); both exist even though the
identity pool does not enable unauthenticated access. -/
theorem paired_trust_statements (ref : String) :
    (createRolesTrustStatements ref).length = 2
    ∧ (authenticatedTrustStatement ref).effect
        = (unauthenticatedTrustStatement ref).effect
    ∧ (authenticatedTrustStatement ref).actions
        = (unauthenticatedTrustStatement ref).actions
    ∧ (authenticatedTrustStatement ref).principalFederated
        = (unauthenticatedTrustStatement ref).principalFederated
    ∧ (authenticatedTrustStatement ref).condition.audEquals
        = (unauthenticatedTrustStatement ref).condition.audEquals
    ∧ (authenticatedTrustStatement ref).condition.amrLike = "authenticated"
    ∧ (unauthenticatedTrustStatement ref).condition.amrLike = "unauthenticated"
    ∧ (authenticatedTrustStatement ref).condition.amrLike
        ≠ (unauthenticatedTrustStatement ref).condition.amrLike
    ∧ identityPool.allowUnauthenticatedIdentities = false :=
  ⟨rfl, rfl, rfl, rfl, rfl, rfl, rfl,
    show ("authenticated" : String) ≠ "unauthenticated" by decide, rfl⟩

/-- **C9**.  The unauthenticated role is constructed with no attached
permission policies, so a credential obtained through it is permitted no S3
action at all, and the identity pool additionally disallows unauthenticated
identities. -/
theorem unauthenticated_role_no_permissions (ref : String) :
    (unauthenticatedRole ref).managedPolicies = []
    ∧ (∀ tag action resource,
        roleAllows (unauthenticatedRole ref) tag action resource = false)
    ∧ identityPool.allowUnauthenticatedIdentities = false :=
  ⟨rfl, fun _ _ _ => rfl, rfl⟩

/-- **C10**.  The unscoped listing statement permits `s3:ListBucket` on the
whole bucket for every session-tag value, and its verdict is independent of the
tag, so any tenant's credential can enumerate every tenant's object keys. -/
theorem listing_statement_unscoped (bucketArn : String)
    (hArn : '$' ∉ bucketArn.data) :
    (∀ tag : String,
        statementAllows (listBucketStatement bucketArn) tag "s3:ListBucket"
          bucketArn = true)
    ∧ ∀ tag₁ tag₂ action resource : String,
        statementAllows (listBucketStatement bucketArn) tag₁ action resource
          = statementAllows (listBucketStatement bucketArn) tag₂ action resource := by
  constructor
  · intro tag
    unfold statementAllows actionMatches resourceMatches listBucketStatement
    simp only [List.any_cons, List.any_nil, Bool.or_false]
    rw [substClientTag_of_no_dollar tag bucketArn hArn]
    unfold stringLike
    rw [globMatch_refl, globMatch_refl]
    rfl
  · intro tag₁ tag₂ action resource
    unfold statementAllows resourceMatches listBucketStatement
    simp only [List.any_cons, List.any_nil, Bool.or_false]
    rw [substClientTag_of_no_dollar tag₁ bucketArn hArn,
      substClientTag_of_no_dollar tag₂ bucketArn hArn]

/-- **C10** witness: with a concrete bucket ARN, a credential tagged for one
tenant may list the whole bucket. -/
theorem listing_statement_unscoped_witness :
    statementAllows (listBucketStatement "arn:aws:s3:::test-bucket") "acme"
      "s3:ListBucket" "arn:aws:s3:::test-bucket" = true :=
  (listing_statement_unscoped "arn:aws:s3:::test-bucket" (by decide)).1 "acme"

end AttributeAccess
